import Mathlib

/-!
Verification development for the Liquid-Assassin liquidation bot.

The development shallowly embeds the parts of the repository that the
stated properties concern:

* `SimpleLiquidator` — the Solidity 0.8.20 flash-loan liquidation contract
  (`SimpleLiquidator.sol`): checked `uint256` arithmetic is modelled on `ℕ`
  with explicit overflow/underflow revert branches (Solidity ≥ 0.8 reverts
  on wrapping instead of wrapping silently), and revert reasons are an
  explicit error type.
* `AaveSvc` — the TypeScript health-factor engine
  (`server/aave-service.ts`), whose JavaScript number arithmetic is
  modelled exactly over `JSNum := Option ℚ` where `none` plays the role of
  `NaN` (`NaN` propagates through `+`, `*`, `/` and makes every ordering
  comparison false, as in JavaScript).
* `WsMgr` — the reconnection backoff logic of
  `server/websocket/websocket-manager.ts`.
* `HFCalc` — the liquidation-amount selection of
  `HealthFactorCalculator.analyzeLiquidationOpportunity`, over `ℕ` wei
  amounts (ethers `BigNumber` integer arithmetic).
* `DBSvc` — the keyed upsert of
  `DatabaseService.upsertLiquidationPosition`, modelled as a function
  store updated by `INSERT ... ON CONFLICT ... DO UPDATE`.
-/

namespace SimpleLiquidator

/-- `2^256`, the modulus of Solidity's `uint256`; arithmetic that would
leave `[0, 2^256)` reverts in Solidity 0.8. -/
def UINT256_MOD : ℕ := 2 ^ 256

/-- `uint256 public constant FLASH_LOAN_PREMIUM_BPS = 5`. -/
def FLASH_LOAN_PREMIUM_BPS : ℕ := 5

/-- `uint256 public constant MAX_SLIPPAGE_BPS = 1000`. -/
def MAX_SLIPPAGE_BPS : ℕ := 1000

/-- `uint256 public constant MIN_PROFIT_BPS = 10`. -/
def MIN_PROFIT_BPS : ℕ := 10

/-- Revert reasons of `SimpleLiquidator`: the contract's custom errors,
plus the two arithmetic panics of Solidity 0.8 checked arithmetic. -/
inductive SolError where
  | UnauthorizedCaller
  | InvalidInitiator
  | DeadlineExpired
  | InsufficientBalance
  | ZeroAddress
  | ZeroAmount
  | InvalidSlippage
  | InsufficientProfit
  | FlashLoanFailed
  | SlippageExceeded
  | InvalidPath
  | NoOutput
  | TokenNotAllowed
  | GetAmountsOutFailed
  | ArithmeticOverflow
  | ArithmeticUnderflow
  deriving DecidableEq, Repr

/-- The validation prologue of `executeLiquidation` (lines 97–102):
addresses are modelled as `ℕ` with `0 = address(0)`.  Returns `.ok ()`
exactly when the submission passes all preconditions and proceeds to
`flashLoanSimple`. -/
def executeLiquidationChecks (targetUser collateralAsset debtAsset : ℕ)
    (debtAmount maxSlippageBps deadline blockTimestamp : ℕ) : Except SolError Unit :=
  if targetUser = 0 then .error .ZeroAddress
  else if collateralAsset = 0 then .error .ZeroAddress
  else if debtAsset = 0 then .error .ZeroAddress
  else if debtAmount = 0 then .error .ZeroAmount
  else if blockTimestamp > deadline then .error .DeadlineExpired
  else if maxSlippageBps > MAX_SLIPPAGE_BPS then .error .InvalidSlippage
  else .ok ()

/-- `_finalizeLiquidation` (lines 193–233): the repay/profit phase of the
flash-loan callback.  `amount` is the borrowed amount, `premium` the flash
premium, `finalBalance` is `IERC20(asset).balanceOf(address(this))` after
the swap.  Returns the realized profit on success.  The event emission,
allowance bookkeeping and cumulative counters are on-chain side effects
with no bearing on the control flow modelled here. -/
def finalizeLiquidation (amount premium finalBalance : ℕ) : Except SolError ℕ :=
  if UINT256_MOD ≤ amount + premium then .error .ArithmeticOverflow
  else
    let totalRepayment := amount + premium
    if finalBalance < totalRepayment then .error .InsufficientBalance
    else
      let profit := finalBalance - totalRepayment
      if UINT256_MOD ≤ amount * MIN_PROFIT_BPS then .error .ArithmeticOverflow
      else
        let minProfit := amount * MIN_PROFIT_BPS / 10000
        if profit < minProfit then .error .InsufficientProfit
        else .ok profit

/-- The quote-validation and `minAmountOut` computation of `_executeSwap`
(lines 242–260): the deadline check, the rejection of a quote with fewer
than two entries (`InvalidPath`) or a zero final expected output
(`NoOutput`), and `minAmountOut = (expectedOut * (10000 - maxSlippageBps))
/ 10000`.  `expectedAmounts` is the array returned by
`ROUTER.getAmountsOut`; its last element is `expectedOut`.  In Solidity
0.8 the subtraction `10000 - maxSlippageBps` reverts when
`maxSlippageBps > 10000` and the multiplication reverts on overflow; both
revert branches are explicit here. -/
def executeSwapQuote (expectedAmounts : List ℕ)
    (maxSlippageBps blockTimestamp deadline : ℕ) : Except SolError ℕ :=
  if deadline < blockTimestamp then .error .DeadlineExpired
  else if expectedAmounts.length < 2 then .error .InvalidPath
  else
    let expectedOut := expectedAmounts.getLastD 0
    if expectedOut = 0 then .error .NoOutput
    else if maxSlippageBps > 10000 then .error .ArithmeticUnderflow
    else if UINT256_MOD ≤ expectedOut * (10000 - maxSlippageBps) then .error .ArithmeticOverflow
    else .ok (expectedOut * (10000 - maxSlippageBps) / 10000)

end SimpleLiquidator

namespace WsMgr

/-- `WebSocketManager.maxReconnectAttempts = 5`. -/
def maxReconnectAttempts : ℕ := 5

/-- `WebSocketManager.reconnectDelay = 5000` milliseconds (the backoff
base delay). -/
def reconnectDelay : ℕ := 5000

/-- `WebSocketManager.scheduleReconnect` (lines 320–347), as a function of
the connection's current `reconnectAttempts` counter.  When the counter
has reached `maxReconnectAttempts` the method returns without scheduling
anything (`none`, after logging a terminal error); otherwise it increments
the counter and schedules a reconnect after
`reconnectDelay * 2 ^ (attempts - 1)` ms, returning the new counter value
and the scheduled delay. -/
def scheduleReconnect (reconnectAttempts : ℕ) : Option (ℕ × ℕ) :=
  if reconnectAttempts ≥ maxReconnectAttempts then none
  else
    let attempts := reconnectAttempts + 1
    some (attempts, reconnectDelay * 2 ^ (attempts - 1))

end WsMgr

namespace HFCalc

/-- The liquidation-amount selection of
`HealthFactorCalculator.analyzeLiquidationOpportunity` (part of
`health-factor-calculator`, lines 198–205), over 18-decimal wei amounts
(ethers `BigNumber` integer arithmetic):
`maxLiquidationDebt = debtAmount.div(2)`,
`maxLiquidationCollateral =
  collateralAmount.mul(parseUnits("0.5", 18)).div(parseUnits("1", 18))`,
and the selected amount is `maxLiquidationDebt.lt(maxLiquidationCollateral)
? maxLiquidationDebt : maxLiquidationCollateral`. -/
def maxLiquidationAmount (debtAmount collateralAmount : ℕ) : ℕ :=
  let maxLiquidationDebt := debtAmount / 2
  let maxLiquidationCollateral :=
    collateralAmount * 500000000000000000 / 1000000000000000000
  if maxLiquidationDebt < maxLiquidationCollateral then maxLiquidationDebt
  else maxLiquidationCollateral

end HFCalc

namespace AaveSvc

/-- A JavaScript number as it occurs in `aave-service.ts`: `none` is `NaN`
(the result of `parseFloat` on a missing or malformed string), `some q` a
real value.  NaN propagates through arithmetic and makes every ordering
comparison evaluate to `false`, as in JavaScript. -/
def JSNum : Type := Option ℚ

instance : DecidableEq JSNum := by unfold JSNum; infer_instance

/-- JavaScript `+` on numbers. -/
def jsAdd : JSNum → JSNum → JSNum
  | some x, some y => some (x + y)
  | _, _ => none

/-- JavaScript `*` on numbers. -/
def jsMul : JSNum → JSNum → JSNum
  | some x, some y => some (x * y)
  | _, _ => none

/-- JavaScript `/` on numbers.  In `aave-service.ts` every division is
guarded by a strict positivity test on the divisor, so only the
`some x / some y` case with `y ≠ 0` is ever reached; a NaN operand
propagates. -/
def jsDiv : JSNum → JSNum → JSNum
  | some x, some y => if y = 0 then none else some (x / y)
  | _, _ => none

/-- JavaScript `<`: comparisons involving NaN are `false`. -/
def jsLtB : JSNum → JSNum → Bool
  | some x, some y => decide (x < y)
  | _, _ => false

/-- JavaScript `<=`: comparisons involving NaN are `false`. -/
def jsLeB : JSNum → JSNum → Bool
  | some x, some y => decide (x ≤ y)
  | _, _ => false

/-- JavaScript `>`: comparisons involving NaN are `false`. -/
def jsGtB : JSNum → JSNum → Bool
  | some x, some y => decide (y < x)
  | _, _ => false

/-- JavaScript `>=`: comparisons involving NaN are `false`. -/
def jsGeB : JSNum → JSNum → Bool
  | some x, some y => decide (y ≤ x)
  | _, _ => false

/-- JavaScript `Math.min`: NaN-propagating. -/
def jsMin : JSNum → JSNum → JSNum
  | some x, some y => some (min x y)
  | _, _ => none

/-- One entry of `AaveUser.reserves` after the parsing that
`calculateHealthFactor` performs on it: `decimals` via `parseInt`,
`priceInEth` via `parseFloat` (NaN — `none` — when the price string is
missing or malformed), `liquidationThreshold` via `parseInt` in basis
points, and the three balance strings via `parseFloat` (the properties
under study concern well-formed balances, kept as `ℚ`). -/
structure AaveUserReserve where
  symbol : String
  decimals : ℕ
  priceInEth : JSNum
  liquidationThresholdBps : ℕ
  usageAsCollateralEnabledOnUser : Bool
  currentATokenBalance : ℚ
  currentVariableDebt : ℚ
  currentStableDebt : ℚ
  deriving DecidableEq

/-- A subgraph user: an address and its reserve entries. -/
structure AaveUser where
  id : String
  reserves : List AaveUserReserve
  deriving DecidableEq

/-- The loop body of `AaveService.calculateHealthFactor` (lines 139–160):
the accumulator is `(totalCollateralETH, totalDebtETH,
totalCollateralWithThreshold)`. -/
def hfStep (acc : JSNum × JSNum × JSNum) (r : AaveUserReserve) :
    JSNum × JSNum × JSNum :=
  let tc := acc.1
  let td := acc.2.1
  let tw := acc.2.2
  let liquidationThreshold : ℚ := (r.liquidationThresholdBps : ℚ) / 10000
  let collateral : JSNum × JSNum :=
    if r.usageAsCollateralEnabledOnUser = true ∧ 0 < r.currentATokenBalance then
      let collateralAmount : ℚ := r.currentATokenBalance / 10 ^ r.decimals
      let collateralValueETH := jsMul (some collateralAmount) r.priceInEth
      (jsAdd tc collateralValueETH,
       jsAdd tw (jsMul collateralValueETH (some liquidationThreshold)))
    else (tc, tw)
  let totalDebt : ℚ := r.currentVariableDebt + r.currentStableDebt
  let td :=
    if 0 < totalDebt then
      jsAdd td (jsMul (some (totalDebt / 10 ^ r.decimals)) r.priceInEth)
    else td
  (collateral.1, td, collateral.2)

/-- The aggregation totals `(totalCollateralETH, totalDebtETH,
totalCollateralWithThreshold)` computed by the reserve loop of
`AaveService.calculateHealthFactor`, all initialised to `0`. -/
def hfTotals (user : AaveUser) : JSNum × JSNum × JSNum :=
  user.reserves.foldl hfStep (some 0, some 0, some 0)

/-- The result record of `AaveService.calculateHealthFactor`
(`HealthFactorData`, minus the presentation-only `availableBorrowsETH`
and `ltv` fields, which no property concerns). -/
structure HealthFactorData where
  userAddress : String
  healthFactor : JSNum
  totalCollateralETH : JSNum
  totalDebtETH : JSNum
  currentLiquidationThreshold : JSNum
  reserves : List AaveUserReserve
  deriving DecidableEq

/-- `AaveService.calculateHealthFactor` (lines 133–180):
`currentLiquidationThreshold = totalCollateralETH > 0 ?
totalCollateralWithThreshold / totalCollateralETH : 0` and
`healthFactor = totalDebtETH > 0 ?
totalCollateralWithThreshold / totalDebtETH : 999`. -/
def calculateHealthFactor (user : AaveUser) : HealthFactorData :=
  let t := hfTotals user
  let totalCollateralETH := t.1
  let totalDebtETH := t.2.1
  let totalCollateralWithThreshold := t.2.2
  let currentLiquidationThreshold :=
    if jsGtB totalCollateralETH (some 0) = true then
      jsDiv totalCollateralWithThreshold totalCollateralETH
    else some 0
  let healthFactor :=
    if jsGtB totalDebtETH (some 0) = true then
      jsDiv totalCollateralWithThreshold totalDebtETH
    else some 999
  { userAddress := user.id, healthFactor, totalCollateralETH, totalDebtETH,
    currentLiquidationThreshold, reserves := user.reserves }

/-- `isLiquidatable = healthFactorNum < 1.0`
(`HealthFactorCalculator.calculateHealthFactor`, line 97). -/
def isLiquidatable (healthFactor : JSNum) : Bool :=
  jsLtB healthFactor (some 1)

end AaveSvc

namespace AaveSvc

/-- The three-way opportunity classification realised by
`AaveService.getLiquidationOpportunities`: a position outside the
monitoring band is never emitted (`Safe`), and an emitted position's
`status` is `in_range` or `monitoring`. -/
inductive Classification where
  | Safe
  | Monitoring
  | InExecutionRange
  deriving DecidableEq, Repr

/-- The classification a health factor receives, as the composition of the
monitoring-band filter of `getLiquidationOpportunities` (line 227:
`healthFactor >= monitoringMin && healthFactor <= monitoringMax`) with the
execution-band status assignment of `convertToLiquidationPosition` (lines
296–300: `in_range` when `healthFactor >= executionMin && healthFactor <=
executionMax`, else `monitoring`). -/
def classify (hf monitoringMin monitoringMax executionMin executionMax : ℚ) :
    Classification :=
  if monitoringMin ≤ hf ∧ hf ≤ monitoringMax then
    if executionMin ≤ hf ∧ hf ≤ executionMax then Classification.InExecutionRange
    else Classification.Monitoring
  else Classification.Safe

/-- The running `largestCollateral` / `largestDebt` accumulator of
`convertToLiquidationPosition`, initialised to
`{ symbol: "", amount: 0, valueETH: 0 }`. -/
structure LargestEntry where
  symbol : String
  amount : ℚ
  valueETH : JSNum
  deriving DecidableEq

/-- The `status` field of a `LiquidationPosition`. -/
inductive PositionStatus where
  | monitoring
  | in_range
  | executed
  deriving DecidableEq, Repr

/-- A `LiquidationPosition` as produced by `convertToLiquidationPosition`
(lines 302–314), keeping the fields the properties concern; the
storage-assigned `id`, the `firstSeen`/`lastUpdated` clock reads, the
`toFixed(6)` string formatting of the amounts and the `ethPrice` USD
scaling of the profit estimate are presentation-only. -/
structure LiquidationPosition where
  userAddress : String
  healthFactor : JSNum
  collateralAsset : String
  collateralAmount : ℚ
  debtAsset : String
  debtAmount : ℚ
  estimatedProfitETH : JSNum
  status : PositionStatus
  deriving DecidableEq

/-- The loop body of `convertToLiquidationPosition` (lines 253–285):
replace the running largest collateral / largest debt entry whenever the
current reserve's ETH value strictly exceeds it (a NaN value never wins a
`>` comparison). -/
def convStep (acc : LargestEntry × LargestEntry) (r : AaveUserReserve) :
    LargestEntry × LargestEntry :=
  let lc := acc.1
  let ld := acc.2
  let lc :=
    if r.usageAsCollateralEnabledOnUser = true ∧ 0 < r.currentATokenBalance then
      let collateralAmount : ℚ := r.currentATokenBalance / 10 ^ r.decimals
      let valueETH := jsMul (some collateralAmount) r.priceInEth
      if jsGtB valueETH lc.valueETH = true then
        { symbol := r.symbol, amount := collateralAmount, valueETH := valueETH }
      else lc
    else lc
  let totalDebt : ℚ := r.currentVariableDebt + r.currentStableDebt
  let ld :=
    if 0 < totalDebt then
      let debtAmount : ℚ := totalDebt / 10 ^ r.decimals
      let valueETH := jsMul (some debtAmount) r.priceInEth
      if jsGtB valueETH ld.valueETH = true then
        { symbol := r.symbol, amount := debtAmount, valueETH := valueETH }
      else ld
    else ld
  (lc, ld)

/-- `AaveService.convertToLiquidationPosition` (lines 248–315): pick the
largest collateral and debt entries, return `null` when either largest
ETH value is (strictly, `===`) zero, estimate the profit, and assign the
`status` from the execution band. -/
def convertToLiquidationPosition (healthData : HealthFactorData)
    (executionMin executionMax : ℚ) : Option LiquidationPosition :=
  let l := healthData.reserves.foldl convStep
    (⟨"", 0, some 0⟩, ⟨"", 0, some 0⟩)
  let largestCollateral := l.1
  let largestDebt := l.2
  if largestCollateral.valueETH = some 0 ∨ largestDebt.valueETH = some 0 then
    none
  else
    let liquidationBonus : ℚ := 5 / 100
    let estimatedProfitETH :=
      jsMul (jsMin (jsMul largestDebt.valueETH (some (1 / 2)))
        largestCollateral.valueETH) (some liquidationBonus)
    let status :=
      if jsGeB healthData.healthFactor (some executionMin) = true ∧
          jsLeB healthData.healthFactor (some executionMax) = true then
        PositionStatus.in_range
      else PositionStatus.monitoring
    some { userAddress := healthData.userAddress,
           healthFactor := healthData.healthFactor,
           collateralAsset := largestCollateral.symbol,
           collateralAmount := largestCollateral.amount,
           debtAsset := largestDebt.symbol,
           debtAmount := largestDebt.amount,
           estimatedProfitETH := estimatedProfitETH,
           status := status }

/-- The ascending-health-factor key order behind the final
`positions.sort((a, b) => a.healthFactor - b.healthFactor)`.  The
comparator's behaviour on NaN is not specified by JavaScript; here NaN
orders first, which is immaterial because the monitoring-band filter
provably keeps NaN health factors out of the list (see the C10
theorem). -/
def hfKeyLe : JSNum → JSNum → Bool
  | none, _ => true
  | some _, none => false
  | some x, some y => decide (x ≤ y)

/-- The sort order on positions: by health factor, ascending. -/
def posLe (a b : LiquidationPosition) : Prop :=
  hfKeyLe a.healthFactor b.healthFactor = true

instance : DecidableRel posLe := fun a b => by
  unfold posLe; infer_instance

instance : IsTotal LiquidationPosition posLe := ⟨by
  intro a b
  unfold posLe hfKeyLe
  rcases a.healthFactor with _ | x <;> rcases b.healthFactor with _ | y <;> simp
  exact le_total x y⟩

instance : IsTrans LiquidationPosition posLe := ⟨by
  intro a b c hab hbc
  unfold posLe hfKeyLe at hab hbc
  unfold posLe hfKeyLe
  rcases ha : a.healthFactor with _ | x <;> rcases hb : b.healthFactor with _ | y <;>
    rcases hc : c.healthFactor with _ | z <;> simp_all
  exact le_trans hab hbc⟩

/-- The per-batch classification and final sort of
`AaveService.getLiquidationOpportunities` (lines 183–245), over an
in-memory list of subgraph users: every user whose health factor passes
the monitoring-band filter and converts to a position is collected, and
the collected positions are sorted by ascending health factor.  The
subgraph pagination, the `Map`-based deduplication of the two debt
queries, the `maxUsers` cap and the catch-all empty return on a network
error surround this core without changing what is emitted per user. -/
def getLiquidationOpportunities (users : List AaveUser)
    (monitoringMin monitoringMax executionMin executionMax : ℚ) :
    List LiquidationPosition :=
  List.insertionSort posLe (users.filterMap (fun user =>
    let healthData := calculateHealthFactor user
    if jsGeB healthData.healthFactor (some monitoringMin) = true ∧
        jsLeB healthData.healthFactor (some monitoringMax) = true then
      convertToLiquidationPosition healthData executionMin executionMax
    else none))

/-- Domain-validity of one reserve entry for the threshold-range property:
its price parsed to a real, non-negative value, its collateral balance is
non-negative, and its liquidation threshold is at most 10000 basis points
(a fraction in `[0,1]`). -/
def ReserveOK (r : AaveUserReserve) : Prop :=
  (∃ p : ℚ, r.priceInEth = some p ∧ 0 ≤ p) ∧
    0 ≤ r.currentATokenBalance ∧ r.liquidationThresholdBps ≤ 10000

/-- Sample reserve: 10 units of enabled collateral priced at 1 ETH with an
80% liquidation threshold and no debt. -/
def resCollateral : AaveUserReserve :=
  { symbol := "USDC", decimals := 0, priceInEth := some 1,
    liquidationThresholdBps := 8000, usageAsCollateralEnabledOnUser := true,
    currentATokenBalance := 10, currentVariableDebt := 0, currentStableDebt := 0 }

/-- Sample reserve: 2 units of variable debt priced at 1 ETH, not used as
collateral. -/
def resDebt : AaveUserReserve :=
  { symbol := "DAI", decimals := 0, priceInEth := some 1,
    liquidationThresholdBps := 8000, usageAsCollateralEnabledOnUser := false,
    currentATokenBalance := 0, currentVariableDebt := 2, currentStableDebt := 0 }

/-- Sample reserve: 5 units of enabled collateral whose price string failed
to parse (`parseFloat` returned NaN). -/
def resMissingPrice : AaveUserReserve :=
  { symbol := "XYZ", decimals := 0, priceInEth := none,
    liquidationThresholdBps := 5000, usageAsCollateralEnabledOnUser := true,
    currentATokenBalance := 5, currentVariableDebt := 0, currentStableDebt := 0 }

/-- Sample user with 10 ETH of collateral (weighted 8) and 2 ETH of debt:
health factor 4. -/
def userCollatDebt : AaveUser := { id := "0xa", reserves := [resCollateral, resDebt] }

/-- Sample user with collateral and no debt: the sentinel branch. -/
def userNoDebt : AaveUser := { id := "0xb", reserves := [resCollateral] }

/-- Sample user holding one priced and one unpriced collateral entry. -/
def userMissingPrice : AaveUser :=
  { id := "0xc", reserves := [resCollateral, resMissingPrice] }

/-- The same user restricted to its entries with prices — what the C7
claim says the aggregation should be computed from. -/
def userPricedOnly : AaveUser := { id := "0xc", reserves := [resCollateral] }

/-- The position `convertToLiquidationPosition` produces for
`userCollatDebt` (health factor 4) under execution band `[0, 1]`:
collateral USDC worth 10 ETH, debt DAI worth 2 ETH, estimated profit
`min(2 × 0.5, 10) × 0.05 = 0.05` ETH, status `monitoring`. -/
def posSample : LiquidationPosition :=
  { userAddress := "0xa", healthFactor := some 4, collateralAsset := "USDC",
    collateralAmount := 10, debtAsset := "DAI", debtAmount := 2,
    estimatedProfitETH := some (1 / 20), status := PositionStatus.monitoring }

end AaveSvc

namespace DBSvc

/-- The `ON CONFLICT` key of `liquidation_positions`:
`(chain_id, user_address, collateral_asset, debt_asset)`. -/
structure PositionKey where
  chain_id : ℕ
  user_address : String
  collateral_asset : String
  debt_asset : String
  deriving DecidableEq

/-- The columns `upsertLiquidationPosition` writes on conflict (the
`EXCLUDED.*` values);  `last_updated` is set to the database's `NOW()`
and `created_at`/`id` are insert-only, none of which affect which values
a key converges to. -/
structure PositionValues where
  collateral_amount : String
  debt_amount : String
  health_factor : ℚ
  liquidation_threshold : ℚ
  liquidation_bonus : ℚ
  is_liquidatable : Bool
  deriving DecidableEq

/-- One row of `liquidation_positions`: the four key columns and the
value columns (the surrogate UUID `id` and the clock columns do not
affect which values a key maps to). -/
structure PositionRow where
  key : PositionKey
  values : PositionValues
  deriving DecidableEq

/-- The `liquidation_positions` table as a bag of rows.  `schema.sql`
(lines 24–38, executed verbatim by `initializeDatabase`) gives the table
a surrogate `id UUID PRIMARY KEY` and nothing else unique: no constraint
or index makes the four-column key unique, so the list is not assumed
keyed. -/
abbrev Table : Type := List PositionRow

/-- The column lists of the unique indexes `schema.sql` declares on
`liquidation_positions`: only the `id` primary key.  The two
`CREATE INDEX` statements on this table (schema.sql lines 98–99) are
non-unique and cannot arbitrate `ON CONFLICT`. -/
def liquidationPositionsUniqueIndexes : List (List String) := [["id"]]

/-- The conflict target named by `upsertLiquidationPosition`:
`ON CONFLICT (chain_id, user_address, collateral_asset, debt_asset)`. -/
def upsertConflictTarget : List String :=
  ["chain_id", "user_address", "collateral_asset", "debt_asset"]

/-- PostgreSQL error 42P10: `there is no unique or exclusion constraint
matching the ON CONFLICT specification`. -/
inductive SqlError where
  | NoMatchingUniqueIndex
  deriving DecidableEq, Repr

/-- `DatabaseService.upsertLiquidationPosition` (lines 124–150) run
against the DDL of `schema.sql`: PostgreSQL admits `INSERT ... ON
CONFLICT (cols) DO UPDATE` only after inferring an arbiter — a unique
index whose columns match the conflict target — and raises error 42P10
before touching any row when none exists, leaving the table unchanged.
When an arbiter exists the statement updates the conflicting row's value
columns (`EXCLUDED.*`, plus `last_updated = NOW()`) or inserts a fresh
row.  The arbiter inference is modelled over the declared unique-index
column lists rather than its outcome being hard-coded. -/
def upsertLiquidationPosition (table : Table) (k : PositionKey)
    (v : PositionValues) : Except SqlError Table :=
  if upsertConflictTarget ∈ liquidationPositionsUniqueIndexes then
    if table.any (fun r => r.key = k) then
      .ok (table.map (fun r => if r.key = k then ⟨k, v⟩ else r))
    else
      .ok (table ++ [⟨k, v⟩])
  else
    .error SqlError.NoMatchingUniqueIndex

/-- An upsert call together with the source timestamp of the data it
carries (the time the on-chain read happened).  The source timestamp is
claim-level bookkeeping only: `upsertLiquidationPosition` receives no
such argument and ignores it. -/
structure UpsertCall where
  key : PositionKey
  values : PositionValues
  sourceTimestamp : ℕ
  deriving DecidableEq

/-- A sequence of upsert calls applied in arrival order.  The issuing
caller, `HealthFactorCalculator.calculateHealthFactor` (part_003 lines
112–137), wraps each call in `try/catch`: a failed call is logged and
swallowed, leaving the table as it was, and later calls still run. -/
def applyCalls (table : Table) (calls : List UpsertCall) : Table :=
  calls.foldl (fun t c =>
    match upsertLiquidationPosition t c.key c.values with
    | .ok t2 => t2
    | .error _ => t) table

/-- Sample conflict key. -/
def sampleKey : PositionKey :=
  { chain_id := 1, user_address := "0xu", collateral_asset := "WETH",
    debt_asset := "DAI" }

/-- Sample row values carried by a fresh read (health factor 1). -/
def sampleValuesA : PositionValues :=
  { collateral_amount := "1", debt_amount := "2", health_factor := 1,
    liquidation_threshold := 8 / 10, liquidation_bonus := 5 / 100,
    is_liquidatable := false }

/-- Sample row values carried by an older, stale read (health factor 2). -/
def sampleValuesB : PositionValues :=
  { collateral_amount := "1", debt_amount := "2", health_factor := 2,
    liquidation_threshold := 8 / 10, liquidation_bonus := 5 / 100,
    is_liquidatable := false }

end DBSvc

/-- C1: in the repay/profit phase with `totalRepayment = amount + premium`
(no `uint256` overflow), a final balance below `totalRepayment` reverts
with `InsufficientBalance`; otherwise a profit below
`amount * MIN_PROFIT_BPS / 10000` reverts with `InsufficientProfit`;
otherwise the liquidation settles successfully, returning the profit. -/
theorem C1_finalize_repay_profit_order (amount premium finalBalance : ℕ)
    (hof1 : amount + premium < SimpleLiquidator.UINT256_MOD)
    (hof2 : amount * SimpleLiquidator.MIN_PROFIT_BPS < SimpleLiquidator.UINT256_MOD) :
    (finalBalance < amount + premium →
      SimpleLiquidator.finalizeLiquidation amount premium finalBalance =
        .error .InsufficientBalance) ∧
    (amount + premium ≤ finalBalance →
      finalBalance - (amount + premium) < amount * SimpleLiquidator.MIN_PROFIT_BPS / 10000 →
      SimpleLiquidator.finalizeLiquidation amount premium finalBalance =
        .error .InsufficientProfit) ∧
    (amount + premium ≤ finalBalance →
      amount * SimpleLiquidator.MIN_PROFIT_BPS / 10000 ≤ finalBalance - (amount + premium) →
      SimpleLiquidator.finalizeLiquidation amount premium finalBalance =
        .ok (finalBalance - (amount + premium))) := by
  refine ⟨?_, ?_, ?_⟩ <;> intro h1 <;>
    simp only [SimpleLiquidator.finalizeLiquidation]
  · rw [if_neg (by omega), if_pos h1]
  · intro h2
    rw [if_neg (by omega), if_neg (by omega), if_neg (by omega), if_pos h2]
  · intro h2
    rw [if_neg (by omega), if_neg (by omega), if_neg (by omega), if_neg (by omega)]

/-- Witness for C1 at concrete inputs: borrow 10000 with premium 5;
a final balance of 10020 settles with profit 15 (threshold is 10);
10004 triggers `InsufficientBalance`; 10006 triggers
`InsufficientProfit`. -/
theorem C1_finalize_repay_profit_order_witness :
    SimpleLiquidator.finalizeLiquidation 10000 5 10020 = .ok 15 ∧
    SimpleLiquidator.finalizeLiquidation 10000 5 10004 = .error .InsufficientBalance ∧
    SimpleLiquidator.finalizeLiquidation 10000 5 10006 = .error .InsufficientProfit := by
  refine ⟨?_, ?_, ?_⟩
  · exact (C1_finalize_repay_profit_order 10000 5 10020 (by decide) (by decide)).2.2
      (by decide) (by decide)
  · exact (C1_finalize_repay_profit_order 10000 5 10004 (by decide) (by decide)).1
      (by decide)
  · exact (C1_finalize_repay_profit_order 10000 5 10006 (by decide) (by decide)).2.1
      (by decide) (by decide)

/-- C2: with `maxSlippageBps` at most `MAX_SLIPPAGE_BPS = 1000` — which the
submission-time validation `executeLiquidationChecks` enforces — and any
`expectedOut ≥ 1`, the subtraction inside
`minAmountOut = expectedOut * (10000 - maxSlippageBps) / 10000` never
underflows (the `ArithmeticUnderflow` revert branch is unreachable), and
whenever the multiplication fits in `uint256` the computation succeeds
with the multiplication-first value.  A quote with fewer than two entries
is rejected with `InvalidPath`, and one whose final expected output is
zero is rejected with `NoOutput`, both before any swap. -/
theorem C2_min_amount_out_no_underflow
    (expectedAmounts : List ℕ) (maxSlippageBps blockTimestamp deadline : ℕ)
    (hslip : maxSlippageBps ≤ SimpleLiquidator.MAX_SLIPPAGE_BPS)
    (hdl : blockTimestamp ≤ deadline) :
    (SimpleLiquidator.executeSwapQuote expectedAmounts maxSlippageBps blockTimestamp deadline ≠
      .error .ArithmeticUnderflow) ∧
    (2 ≤ expectedAmounts.length → 1 ≤ expectedAmounts.getLastD 0 →
      expectedAmounts.getLastD 0 * (10000 - maxSlippageBps) < SimpleLiquidator.UINT256_MOD →
      SimpleLiquidator.executeSwapQuote expectedAmounts maxSlippageBps blockTimestamp deadline =
        .ok (expectedAmounts.getLastD 0 * (10000 - maxSlippageBps) / 10000)) ∧
    (expectedAmounts.length < 2 →
      SimpleLiquidator.executeSwapQuote expectedAmounts maxSlippageBps blockTimestamp deadline =
        .error .InvalidPath) ∧
    (2 ≤ expectedAmounts.length → expectedAmounts.getLastD 0 = 0 →
      SimpleLiquidator.executeSwapQuote expectedAmounts maxSlippageBps blockTimestamp deadline =
        .error .NoOutput) ∧
    (∀ targetUser collateralAsset debtAsset debtAmount s dl ts : ℕ,
      SimpleLiquidator.executeLiquidationChecks targetUser collateralAsset debtAsset
        debtAmount s dl ts = .ok () →
      s ≤ SimpleLiquidator.MAX_SLIPPAGE_BPS) := by
  have hnd : ¬ deadline < blockTimestamp := by omega
  have hns : ¬ maxSlippageBps > 10000 := by
    simp only [SimpleLiquidator.MAX_SLIPPAGE_BPS] at hslip; omega
  refine ⟨?_, ?_, ?_, ?_, ?_⟩
  · simp only [SimpleLiquidator.executeSwapQuote, if_neg hnd, if_neg hns]
    split
    · simp
    · split
      · simp
      · split <;> simp
  · intro hlen hout hof
    simp only [SimpleLiquidator.executeSwapQuote, if_neg hnd]
    rw [if_neg (by omega), if_neg (by omega), if_neg hns, if_neg (by omega)]
  · intro hlen
    simp only [SimpleLiquidator.executeSwapQuote, if_neg hnd]
    rw [if_pos hlen]
  · intro hlen hzero
    simp only [SimpleLiquidator.executeSwapQuote, if_neg hnd]
    rw [if_neg (by omega), if_pos hzero]
  · intro targetUser collateralAsset debtAsset debtAmount s dl ts hok
    simp only [SimpleLiquidator.executeLiquidationChecks] at hok
    split_ifs at hok
    all_goals simp_all [SimpleLiquidator.MAX_SLIPPAGE_BPS]

/-- Witness for C2 at a concrete quote: a two-hop quote ending in 1 unit
with the maximal allowed slippage of 1000 bps computes
`minAmountOut = 1 * 9000 / 10000 = 0` without underflow; a one-entry
quote is rejected with `InvalidPath`; a quote ending in 0 is rejected
with `NoOutput`. -/
theorem C2_min_amount_out_no_underflow_witness :
    SimpleLiquidator.executeSwapQuote [5, 1] 1000 10 20 = .ok 0 ∧
    SimpleLiquidator.executeSwapQuote [5] 1000 10 20 = .error .InvalidPath ∧
    SimpleLiquidator.executeSwapQuote [5, 0] 1000 10 20 = .error .NoOutput := by
  refine ⟨?_, ?_, ?_⟩
  · exact (C2_min_amount_out_no_underflow [5, 1] 1000 10 20 (by decide) (by decide)).2.1
      (by decide) (by decide) (by decide)
  · exact (C2_min_amount_out_no_underflow [5] 1000 10 20 (by decide) (by decide)).2.2.1
      (by decide)
  · exact (C2_min_amount_out_no_underflow [5, 0] 1000 10 20 (by decide) (by decide)).2.2.2.1
      (by decide) (by decide)

/-- C5: a reconnect scheduled from a prior counter value `a` becomes
attempt `n = a + 1` with delay `reconnectDelay * 2 ^ (n - 1)` (so attempt
1 waits the base delay and attempt 4 waits eight times the base delay),
the counter is incremented to `n`, and once the counter has reached
`maxReconnectAttempts = 5` no reconnection is scheduled. -/
theorem C5_reconnect_backoff (a : ℕ) :
    (a < WsMgr.maxReconnectAttempts →
      WsMgr.scheduleReconnect a =
        some (a + 1, WsMgr.reconnectDelay * 2 ^ ((a + 1) - 1))) ∧
    (WsMgr.maxReconnectAttempts ≤ a → WsMgr.scheduleReconnect a = none) := by
  constructor
  · intro h
    simp only [WsMgr.scheduleReconnect]
    rw [if_neg (by omega)]
  · intro h
    simp only [WsMgr.scheduleReconnect]
    rw [if_pos (by omega)]

/-- Witness for C5 at concrete counters: attempt 1 is scheduled with the
5000 ms base delay, attempt 4 with 40000 ms = 8 × base, and from a counter
of 5 nothing is scheduled. -/
theorem C5_reconnect_backoff_witness :
    WsMgr.scheduleReconnect 0 = some (1, 5000) ∧
    WsMgr.scheduleReconnect 3 = some (4, 40000) ∧
    WsMgr.scheduleReconnect 5 = none := by
  refine ⟨?_, ?_, ?_⟩
  · exact (C5_reconnect_backoff 0).1 (by decide)
  · exact (C5_reconnect_backoff 3).1 (by decide)
  · exact (C5_reconnect_backoff 5).2 (by decide)

/-- Counterexample to C6: with a debt of 4 × 10¹⁸ wei and a collateral of
10 × 10¹⁸ wei, debt × 0.5 = 2 × 10¹⁸ and the collateral cap is 5 × 10¹⁸;
the larger of the two is 5 × 10¹⁸, but the code selects 2 × 10¹⁸ — the
smaller one. -/
theorem C6_larger_selection_counterexample :
    HFCalc.maxLiquidationAmount 4000000000000000000 10000000000000000000 =
      2000000000000000000 ∧
    max (4000000000000000000 / 2)
      (10000000000000000000 * 500000000000000000 / 1000000000000000000) =
      5000000000000000000 ∧
    (2000000000000000000 : ℕ) ≠ 5000000000000000000 := by
  refine ⟨by decide, by decide, by decide⟩

/-- C6 as amended: for every `InExecutionRange` opportunity the
orchestrator selects as the liquidation amount the SMALLER of
(debt × 0.5) and the collateral-based cap (collateral × 0.5), i.e. the
minimum of the two, not the maximum. -/
theorem C6_min_selection (debtAmount collateralAmount : ℕ) :
    HFCalc.maxLiquidationAmount debtAmount collateralAmount =
      min (debtAmount / 2)
        (collateralAmount * 500000000000000000 / 1000000000000000000) := by
  simp only [HFCalc.maxLiquidationAmount]
  split
  · omega
  · omega


/-- The `healthFactor` field of `calculateHealthFactor`, expressed through
the aggregation totals. -/
theorem calculateHealthFactor_healthFactor_eq (user : AaveSvc.AaveUser)
    (tc td tw : AaveSvc.JSNum) (h : AaveSvc.hfTotals user = (tc, td, tw)) :
    (AaveSvc.calculateHealthFactor user).healthFactor =
      if AaveSvc.jsGtB td (some 0) = true then AaveSvc.jsDiv tw td
      else some 999 := by
  have e : (AaveSvc.calculateHealthFactor user).healthFactor =
      if AaveSvc.jsGtB (AaveSvc.hfTotals user).2.1 (some 0) = true then
        AaveSvc.jsDiv (AaveSvc.hfTotals user).2.2 (AaveSvc.hfTotals user).2.1
      else some 999 := rfl
  rw [e, h]

/-- The `currentLiquidationThreshold` field of `calculateHealthFactor`,
expressed through the aggregation totals. -/
theorem calculateHealthFactor_clt_eq (user : AaveSvc.AaveUser)
    (tc td tw : AaveSvc.JSNum) (h : AaveSvc.hfTotals user = (tc, td, tw)) :
    (AaveSvc.calculateHealthFactor user).currentLiquidationThreshold =
      if AaveSvc.jsGtB tc (some 0) = true then AaveSvc.jsDiv tw tc
      else some 0 := by
  have e : (AaveSvc.calculateHealthFactor user).currentLiquidationThreshold =
      if AaveSvc.jsGtB (AaveSvc.hfTotals user).1 (some 0) = true then
        AaveSvc.jsDiv (AaveSvc.hfTotals user).2.2 (AaveSvc.hfTotals user).1
      else some 0 := rfl
  rw [e, h]

/-- C3: writing the aggregation totals as `(totalCollateral, totalDebt,
weightedThreshold)`, whenever `totalDebtValue` is a positive real the
health factor is `weightedThreshold / totalDebtValue`, and whenever
`totalDebtValue = 0` the health factor is the fixed finite sentinel `999`
— never an unbounded value — for which `isLiquidatable`
(`healthFactor < 1`) is `false`. -/
theorem C3_health_factor_sentinel (user : AaveSvc.AaveUser)
    (tc td tw : AaveSvc.JSNum) (h : AaveSvc.hfTotals user = (tc, td, tw)) :
    (∀ d : ℚ, td = some d → 0 < d →
      (AaveSvc.calculateHealthFactor user).healthFactor = AaveSvc.jsDiv tw td) ∧
    (td = some 0 →
      (AaveSvc.calculateHealthFactor user).healthFactor = some 999 ∧
      AaveSvc.isLiquidatable
        (AaveSvc.calculateHealthFactor user).healthFactor = false) := by
  constructor
  · intro d hd hpos
    rw [calculateHealthFactor_healthFactor_eq user tc td tw h, hd, if_pos]
    simp [AaveSvc.jsGtB, hpos]
  · intro hd
    have e := calculateHealthFactor_healthFactor_eq user tc td tw h
    rw [hd] at e
    rw [if_neg (by norm_num [AaveSvc.jsGtB])] at e
    refine ⟨e, ?_⟩
    rw [e]
    norm_num [AaveSvc.isLiquidatable, AaveSvc.jsLtB]

/-- Witness for C3: the no-debt sample user gets the sentinel health
factor 999 and is not liquidatable; the sample user with weighted
collateral 8 and debt 2 gets health factor 8 / 2 = 4. -/
theorem C3_health_factor_sentinel_witness :
    (AaveSvc.calculateHealthFactor AaveSvc.userNoDebt).healthFactor = some 999 ∧
    AaveSvc.isLiquidatable
      (AaveSvc.calculateHealthFactor AaveSvc.userNoDebt).healthFactor = false ∧
    (AaveSvc.calculateHealthFactor AaveSvc.userCollatDebt).healthFactor = some 4 := by
  have h1 := (C3_health_factor_sentinel AaveSvc.userNoDebt
    (some 10) (some 0) (some 8) (by
      norm_num [AaveSvc.hfTotals, AaveSvc.hfStep, AaveSvc.userNoDebt,
        AaveSvc.resCollateral, AaveSvc.jsAdd, AaveSvc.jsMul])).2 rfl
  have h2 := (C3_health_factor_sentinel AaveSvc.userCollatDebt
    (some 10) (some 2) (some 8) (by
      norm_num [AaveSvc.hfTotals, AaveSvc.hfStep, AaveSvc.userCollatDebt,
        AaveSvc.resCollateral, AaveSvc.resDebt, AaveSvc.jsAdd,
        AaveSvc.jsMul])).1 2 rfl (by norm_num)
  refine ⟨h1.1, h1.2, ?_⟩
  rw [h2]
  norm_num [AaveSvc.jsDiv]

/-- C4: with the execution band a (well-formed) sub-range of the
monitoring band — the configuration invariant `monitoring_min ≤
execution_min ≤ execution_max ≤ monitoring_max` — a health factor
classifies `InExecutionRange` iff `execution_min ≤ hf ≤ execution_max`,
`Monitoring` iff `monitoring_min ≤ hf < execution_min` or
`execution_max < hf ≤ monitoring_max`, and `Safe` otherwise (iff `hf`
falls outside the monitoring band); concretely, with monitoring band
`[0.75, 1.05]` and execution band `[0.85, 0.87]`, `hf = 0.86` is
`InExecutionRange`, `hf = 0.80` is `Monitoring` and `hf = 1.20` is
`Safe`. -/
theorem C4_classification_characterization (hf mMin mMax eMin eMax : ℚ)
    (h1 : mMin ≤ eMin) (h2 : eMin ≤ eMax) (h3 : eMax ≤ mMax) :
    (AaveSvc.classify hf mMin mMax eMin eMax = .InExecutionRange ↔
      eMin ≤ hf ∧ hf ≤ eMax) ∧
    (AaveSvc.classify hf mMin mMax eMin eMax = .Monitoring ↔
      ((mMin ≤ hf ∧ hf < eMin) ∨ (eMax < hf ∧ hf ≤ mMax))) ∧
    (AaveSvc.classify hf mMin mMax eMin eMax = .Safe ↔
      (hf < mMin ∨ mMax < hf)) ∧
    AaveSvc.classify (86/100) (75/100) (105/100) (85/100) (87/100) =
      .InExecutionRange ∧
    AaveSvc.classify (80/100) (75/100) (105/100) (85/100) (87/100) =
      .Monitoring ∧
    AaveSvc.classify (120/100) (75/100) (105/100) (85/100) (87/100) =
      .Safe := by
  refine ⟨?_, ?_, ?_, ?_, ?_, ?_⟩
  · simp only [AaveSvc.classify]
    split_ifs with hm he
    · exact ⟨fun _ => he, fun _ => rfl⟩
    · refine ⟨fun hc => absurd hc (by simp), fun hr => absurd hr he⟩
    · refine ⟨fun hc => absurd hc (by simp), fun hr => ?_⟩
      exact absurd ⟨le_trans h1 hr.1, le_trans hr.2 h3⟩ hm
  · simp only [AaveSvc.classify]
    split_ifs with hm he
    · refine ⟨fun hc => absurd hc (by simp), fun hr => ?_⟩
      exfalso
      rcases hr with ⟨h4, h5⟩ | ⟨h4, h5⟩
      · exact absurd he.1 (not_le.mpr h5)
      · exact absurd he.2 (not_le.mpr h4)
    · refine ⟨fun _ => ?_, fun _ => rfl⟩
      rcases not_and_or.mp he with h4 | h4
      · exact Or.inl ⟨hm.1, not_le.mp h4⟩
      · exact Or.inr ⟨not_le.mp h4, hm.2⟩
    · refine ⟨fun hc => absurd hc (by simp), fun hr => ?_⟩
      exfalso
      rcases hr with ⟨h4, h5⟩ | ⟨h4, h5⟩
      · exact hm ⟨h4, le_trans (le_of_lt h5) (le_trans h2 h3)⟩
      · exact hm ⟨le_trans h1 (le_trans h2 (le_of_lt h4)), h5⟩
  · simp only [AaveSvc.classify]
    split_ifs with hm he
    · refine ⟨fun hc => absurd hc (by simp), fun hr => ?_⟩
      exfalso
      rcases hr with h4 | h4
      · exact absurd hm.1 (not_le.mpr h4)
      · exact absurd hm.2 (not_le.mpr h4)
    · refine ⟨fun hc => absurd hc (by simp), fun hr => ?_⟩
      exfalso
      rcases hr with h4 | h4
      · exact absurd hm.1 (not_le.mpr h4)
      · exact absurd hm.2 (not_le.mpr h4)
    · refine ⟨fun _ => ?_, fun _ => rfl⟩
      rcases not_and_or.mp hm with h4 | h4
      · exact Or.inl (not_le.mp h4)
      · exact Or.inr (not_le.mp h4)
  · norm_num [AaveSvc.classify]
  · norm_num [AaveSvc.classify]
  · norm_num [AaveSvc.classify]

/-- Witness for C4 at the concrete bands of the specification, derived
from the characterisation: with monitoring band `[0.75, 1.05]` and
execution band `[0.85, 0.87]`, a health factor of `0.86` classifies
`InExecutionRange`. -/
theorem C4_classification_characterization_witness :
    AaveSvc.classify (86/100) (75/100) (105/100) (85/100) (87/100) =
      .InExecutionRange :=
  (C4_classification_characterization (86/100) (75/100) (105/100) (85/100)
    (87/100) (by norm_num) (by norm_num) (by norm_num)).1.mpr
    ⟨by norm_num, by norm_num⟩

/-- Counterexample to C7: for the sample user holding one priced
collateral entry (value 10) and one whose price is missing, the claim
says the aggregated collateral total equals the total over the priced
entries alone (10); in the code the missing price is parsed to NaN, which
propagates through the aggregation, so the collateral total is NaN —
not 10 — and no entry is excluded. -/
theorem C7_missing_price_exclusion_counterexample :
    (AaveSvc.hfTotals AaveSvc.userMissingPrice).1 = none ∧
    (AaveSvc.hfTotals AaveSvc.userPricedOnly).1 = some 10 ∧
    (AaveSvc.hfTotals AaveSvc.userMissingPrice).1 ≠
      (AaveSvc.hfTotals AaveSvc.userPricedOnly).1 := by
  have hA : (AaveSvc.hfTotals AaveSvc.userMissingPrice).1 = none := by
    norm_num [AaveSvc.hfTotals, AaveSvc.hfStep, AaveSvc.userMissingPrice,
      AaveSvc.resCollateral, AaveSvc.resMissingPrice, AaveSvc.jsAdd,
      AaveSvc.jsMul]
  have hB : (AaveSvc.hfTotals AaveSvc.userPricedOnly).1 = some 10 := by
    norm_num [AaveSvc.hfTotals, AaveSvc.hfStep, AaveSvc.userPricedOnly,
      AaveSvc.resCollateral, AaveSvc.jsAdd, AaveSvc.jsMul]
  refine ⟨hA, hB, ?_⟩
  rw [hA, hB]
  simp

/-- JavaScript addition with NaN on the right is NaN. -/
theorem jsAdd_right_none (x : AaveSvc.JSNum) : AaveSvc.jsAdd x none = none := by
  rcases x with _ | a <;> rfl

/-- The collateral total stays NaN once it becomes NaN: the aggregation
loop never clears it. -/
theorem hfStep_fst_none (acc : AaveSvc.JSNum × AaveSvc.JSNum × AaveSvc.JSNum)
    (r : AaveSvc.AaveUserReserve) (h : acc.1 = none) :
    (AaveSvc.hfStep acc r).1 = none := by
  by_cases hc : (r.usageAsCollateralEnabledOnUser = true ∧ 0 < r.currentATokenBalance)
  · simp [AaveSvc.hfStep, hc, h, jsAdd_right_none, AaveSvc.jsAdd]
  · simp [AaveSvc.hfStep, hc, h]

/-- NaN-ness of the collateral total is preserved by the rest of the
aggregation loop. -/
theorem foldl_hfStep_fst_none (l : List AaveSvc.AaveUserReserve)
    (acc : AaveSvc.JSNum × AaveSvc.JSNum × AaveSvc.JSNum) (h : acc.1 = none) :
    (l.foldl AaveSvc.hfStep acc).1 = none := by
  induction l generalizing acc with
  | nil => simpa using h
  | cons r rest ih =>
    rw [List.foldl_cons]
    exact ih _ (hfStep_fst_none acc r h)

/-- An enabled collateral entry with a positive balance and a missing
price turns the collateral total into NaN. -/
theorem hfStep_fst_poison (acc : AaveSvc.JSNum × AaveSvc.JSNum × AaveSvc.JSNum)
    (r : AaveSvc.AaveUserReserve) (hc : r.usageAsCollateralEnabledOnUser = true)
    (hb : 0 < r.currentATokenBalance) (hp : r.priceInEth = none) :
    (AaveSvc.hfStep acc r).1 = none := by
  simp [AaveSvc.hfStep, hc, hb, hp, AaveSvc.jsMul, jsAdd_right_none]

/-- C7 as amended: an entry with a missing price is NOT excluded from the
aggregation — `parseFloat` yields NaN for it, the NaN propagates through
the sums, and the collateral total of any user holding an enabled,
positively-funded collateral entry without a price is NaN rather than the
total over the priced entries; no data-quality warning is raised anywhere
in `calculateHealthFactor`. -/
theorem C7_missing_price_poisons_totals (user : AaveSvc.AaveUser)
    (h : ∃ r ∈ user.reserves, r.usageAsCollateralEnabledOnUser = true ∧
      0 < r.currentATokenBalance ∧ r.priceInEth = none) :
    (AaveSvc.hfTotals user).1 = none := by
  obtain ⟨r, hr, hc, hb, hp⟩ := h
  obtain ⟨s, t, hst⟩ := List.append_of_mem hr
  simp only [AaveSvc.hfTotals, hst, List.foldl_append, List.foldl_cons]
  exact foldl_hfStep_fst_none t _ (hfStep_fst_poison _ r hc hb hp)

/-- Witness for the amended C7 at the sample user with one unpriced
collateral entry: its collateral total is NaN. -/
theorem C7_missing_price_poisons_totals_witness :
    (AaveSvc.hfTotals AaveSvc.userMissingPrice).1 = none :=
  C7_missing_price_poisons_totals AaveSvc.userMissingPrice
    ⟨AaveSvc.resMissingPrice,
      by simp [AaveSvc.userMissingPrice],
      rfl,
      by norm_num [AaveSvc.resMissingPrice],
      rfl⟩

/-- One aggregation step preserves "the collateral total and the weighted
threshold are real, non-negative-weighted, and the weighted threshold is
bounded by the collateral total", provided the reserve entry is
domain-valid. -/
theorem hfStep_bounds (r : AaveSvc.AaveUserReserve) (hOK : AaveSvc.ReserveOK r)
    (acc : AaveSvc.JSNum × AaveSvc.JSNum × AaveSvc.JSNum) (tc tw : ℚ)
    (hacc1 : acc.1 = some tc) (hacc2 : acc.2.2 = some tw)
    (h0 : 0 ≤ tw) (h1 : tw ≤ tc) :
    ∃ tc' tw' : ℚ, (AaveSvc.hfStep acc r).1 = some tc' ∧
      (AaveSvc.hfStep acc r).2.2 = some tw' ∧ 0 ≤ tw' ∧ tw' ≤ tc' := by
  obtain ⟨⟨p, hp, hp0⟩, hb, ht⟩ := hOK
  by_cases hc : (r.usageAsCollateralEnabledOnUser = true ∧ 0 < r.currentATokenBalance)
  · set v : ℚ := (r.currentATokenBalance / 10 ^ r.decimals) * p with hv
    have hv0 : 0 ≤ v := mul_nonneg (div_nonneg hb (by positivity)) hp0
    set thr : ℚ := (r.liquidationThresholdBps : ℚ) / 10000 with hthr
    have hthr0 : 0 ≤ thr := by positivity
    have hthr1 : thr ≤ 1 := by
      rw [hthr, div_le_one (by norm_num)]
      exact_mod_cast ht
    refine ⟨tc + v, tw + v * thr, ?_, ?_, ?_, ?_⟩
    · simp [AaveSvc.hfStep, hc, hacc1, hp, AaveSvc.jsMul, AaveSvc.jsAdd, hv]
    · simp [AaveSvc.hfStep, hc, hacc2, hp, AaveSvc.jsMul, AaveSvc.jsAdd, hv, hthr]
    · exact add_nonneg h0 (mul_nonneg hv0 hthr0)
    · have : v * thr ≤ v := by
        calc v * thr ≤ v * 1 := mul_le_mul_of_nonneg_left hthr1 hv0
        _ = v := mul_one v
      exact add_le_add h1 this
  · refine ⟨tc, tw, ?_, ?_, h0, h1⟩
    · simp [AaveSvc.hfStep, hc, hacc1]
    · simp [AaveSvc.hfStep, hc, hacc2]

/-- The aggregation over any list of domain-valid reserve entries keeps
the collateral total and weighted threshold real with
`0 ≤ weighted ≤ collateral`. -/
theorem foldl_hfStep_bounds (l : List AaveSvc.AaveUserReserve)
    (hl : ∀ r ∈ l, AaveSvc.ReserveOK r)
    (acc : AaveSvc.JSNum × AaveSvc.JSNum × AaveSvc.JSNum) (tc tw : ℚ)
    (hacc1 : acc.1 = some tc) (hacc2 : acc.2.2 = some tw)
    (h0 : 0 ≤ tw) (h1 : tw ≤ tc) :
    ∃ tc' tw' : ℚ, (l.foldl AaveSvc.hfStep acc).1 = some tc' ∧
      (l.foldl AaveSvc.hfStep acc).2.2 = some tw' ∧ 0 ≤ tw' ∧ tw' ≤ tc' := by
  induction l generalizing acc tc tw with
  | nil => exact ⟨tc, tw, by simpa using hacc1, by simpa using hacc2, h0, h1⟩
  | cons r rest ih =>
    obtain ⟨tc', tw', e1, e2, b0, b1⟩ :=
      hfStep_bounds r (hl r (List.mem_cons_self r rest)) acc tc tw hacc1 hacc2 h0 h1
    rw [List.foldl_cons]
    exact ih (fun x hx => hl x (List.mem_cons_of_mem r hx)) _ tc' tw' e1 e2 b0 b1

/-- C9: for a user all of whose reserve entries are domain-valid (real
non-negative price, non-negative balance, liquidation threshold a
fraction of at most 10000 bps), whenever the collateral total is a
positive real the computed `currentLiquidationThreshold =
weightedThreshold / totalCollateralValue` is a real number in `[0, 1]`,
and whenever the collateral total is `0` it is `0`. -/
theorem C9_current_liquidation_threshold_unit_interval (user : AaveSvc.AaveUser)
    (hOK : ∀ r ∈ user.reserves, AaveSvc.ReserveOK r) :
    (∀ c : ℚ, (AaveSvc.hfTotals user).1 = some c → 0 < c →
      (AaveSvc.calculateHealthFactor user).currentLiquidationThreshold =
        AaveSvc.jsDiv (AaveSvc.hfTotals user).2.2 (AaveSvc.hfTotals user).1 ∧
      ∃ t : ℚ,
        (AaveSvc.calculateHealthFactor user).currentLiquidationThreshold =
          some t ∧ 0 ≤ t ∧ t ≤ 1) ∧
    ((AaveSvc.hfTotals user).1 = some 0 →
      (AaveSvc.calculateHealthFactor user).currentLiquidationThreshold =
        some 0) := by
  have e : (AaveSvc.calculateHealthFactor user).currentLiquidationThreshold =
      if AaveSvc.jsGtB (AaveSvc.hfTotals user).1 (some 0) = true then
        AaveSvc.jsDiv (AaveSvc.hfTotals user).2.2 (AaveSvc.hfTotals user).1
      else some 0 := rfl
  obtain ⟨tc', tw', e1, e2, b0, b1⟩ :=
    foldl_hfStep_bounds user.reserves hOK (some 0, some 0, some 0) 0 0
      rfl rfl le_rfl le_rfl
  have e1' : (AaveSvc.hfTotals user).1 = some tc' := e1
  have e2' : (AaveSvc.hfTotals user).2.2 = some tw' := e2
  constructor
  · intro c hcval hcpos
    have hceq : c = tc' := by
      have := hcval.symm.trans e1'
      exact Option.some.inj this
    have hgt : AaveSvc.jsGtB (AaveSvc.hfTotals user).1 (some 0) = true := by
      rw [hcval]
      simp [AaveSvc.jsGtB, hcpos]
    refine ⟨by rw [e, if_pos hgt], tw' / c, ?_, div_nonneg b0 (le_of_lt hcpos), ?_⟩
    · rw [e, if_pos hgt, e2', hcval]
      simp [AaveSvc.jsDiv, ne_of_gt hcpos]
    · rw [div_le_one hcpos, hceq]
      exact b1
  · intro hc0
    rw [e, if_neg]
    rw [hc0]
    norm_num [AaveSvc.jsGtB]

/-- Witness for C9 at the sample user (collateral total 10, weighted
threshold 8): its current liquidation threshold is a real number in
`[0, 1]`. -/
theorem C9_current_liquidation_threshold_unit_interval_witness :
    ∃ t : ℚ,
      (AaveSvc.calculateHealthFactor
        AaveSvc.userCollatDebt).currentLiquidationThreshold = some t ∧
      0 ≤ t ∧ t ≤ 1 := by
  have hOK : ∀ r ∈ AaveSvc.userCollatDebt.reserves, AaveSvc.ReserveOK r := by
    intro r hr
    simp [AaveSvc.userCollatDebt] at hr
    rcases hr with h | h <;> subst h
    · exact ⟨⟨1, rfl, by norm_num⟩, by norm_num [AaveSvc.resCollateral], by
        norm_num [AaveSvc.resCollateral]⟩
    · exact ⟨⟨1, rfl, by norm_num⟩, by norm_num [AaveSvc.resDebt], by
        norm_num [AaveSvc.resDebt]⟩
  have hc : (AaveSvc.hfTotals AaveSvc.userCollatDebt).1 = some 10 := by
    norm_num [AaveSvc.hfTotals, AaveSvc.hfStep, AaveSvc.userCollatDebt,
      AaveSvc.resCollateral, AaveSvc.resDebt, AaveSvc.jsAdd, AaveSvc.jsMul]
  exact ((C9_current_liquidation_threshold_unit_interval
    AaveSvc.userCollatDebt hOK).1 10 hc (by norm_num)).2

/-- A position emitted by `convertToLiquidationPosition` carries the
health factor of the health data it was built from. -/
theorem convertToLiquidationPosition_healthFactor
    (hd : AaveSvc.HealthFactorData) (eMin eMax : ℚ)
    (p : AaveSvc.LiquidationPosition)
    (h : AaveSvc.convertToLiquidationPosition hd eMin eMax = some p) :
    p.healthFactor = hd.healthFactor := by
  simp only [AaveSvc.convertToLiquidationPosition] at h
  split at h
  · exact absurd h (by simp)
  · rw [← Option.some.inj h]

/-- C10: every list returned by `getLiquidationOpportunities` is pairwise
ordered by ascending (real) health factor, and every returned position
has a real health factor inside the requested monitoring band
`[monitoringMin, monitoringMax]`. -/
theorem C10_opportunities_sorted_and_in_band (users : List AaveSvc.AaveUser)
    (mMin mMax eMin eMax : ℚ) :
    List.Pairwise (fun a b => ∀ x y : ℚ, a.healthFactor = some x →
      b.healthFactor = some y → x ≤ y)
      (AaveSvc.getLiquidationOpportunities users mMin mMax eMin eMax) ∧
    ∀ p ∈ AaveSvc.getLiquidationOpportunities users mMin mMax eMin eMax,
      ∃ q : ℚ, p.healthFactor = some q ∧ mMin ≤ q ∧ q ≤ mMax := by
  constructor
  · have hs : List.Sorted AaveSvc.posLe
        (AaveSvc.getLiquidationOpportunities users mMin mMax eMin eMax) :=
      List.sorted_insertionSort AaveSvc.posLe _
    refine List.Pairwise.imp ?_ hs
    intro a b hab
    intro x y hx hy
    simp only [AaveSvc.posLe] at hab
    rw [hx, hy] at hab
    simpa [AaveSvc.hfKeyLe] using hab
  · intro p hp
    have hp' := (List.perm_insertionSort AaveSvc.posLe _).mem_iff.mp hp
    obtain ⟨u, hu, hf⟩ := List.mem_filterMap.mp hp'
    dsimp only at hf
    by_cases hcond :
        (AaveSvc.jsGeB (AaveSvc.calculateHealthFactor u).healthFactor
          (some mMin) = true ∧
         AaveSvc.jsLeB (AaveSvc.calculateHealthFactor u).healthFactor
          (some mMax) = true)
    · rw [if_pos hcond] at hf
      obtain ⟨hge, hle⟩ := hcond
      rcases hq : (AaveSvc.calculateHealthFactor u).healthFactor with _ | q
      · rw [hq] at hge
        simp [AaveSvc.jsGeB] at hge
      · refine ⟨q, ?_, ?_, ?_⟩
        · rw [convertToLiquidationPosition_healthFactor _ _ _ _ hf, hq]
        · rw [hq] at hge
          simpa [AaveSvc.jsGeB] using hge
        · rw [hq] at hle
          simpa [AaveSvc.jsLeB] using hle
    · rw [if_neg hcond] at hf
      exact absurd hf (by simp)

/-- Witness for C10 at a concrete input: for the singleton user list with
health factor 4 and monitoring band `[0, 10]`, the emitted position's
health factor is a real number inside the band. -/
theorem C10_opportunities_sorted_and_in_band_witness :
    ∃ q : ℚ, AaveSvc.posSample.healthFactor = some q ∧
      (0 : ℚ) ≤ q ∧ q ≤ 10 := by
  have ht : AaveSvc.hfTotals AaveSvc.userCollatDebt = (some 10, some 2, some 8) := by
    norm_num [AaveSvc.hfTotals, AaveSvc.hfStep, AaveSvc.userCollatDebt,
      AaveSvc.resCollateral, AaveSvc.resDebt, AaveSvc.jsAdd, AaveSvc.jsMul]
  have hhf : (AaveSvc.calculateHealthFactor AaveSvc.userCollatDebt).healthFactor =
      some 4 := by
    rw [calculateHealthFactor_healthFactor_eq _ _ _ _ ht]
    norm_num [AaveSvc.jsGtB, AaveSvc.jsDiv]
  have hconv : AaveSvc.convertToLiquidationPosition
      (AaveSvc.calculateHealthFactor AaveSvc.userCollatDebt) 0 1 =
      some AaveSvc.posSample := by
    have hres : (AaveSvc.calculateHealthFactor AaveSvc.userCollatDebt).reserves =
        [AaveSvc.resCollateral, AaveSvc.resDebt] := rfl
    have hid : (AaveSvc.calculateHealthFactor AaveSvc.userCollatDebt).userAddress =
        "0xa" := rfl
    simp only [AaveSvc.convertToLiquidationPosition, hres, hid, hhf,
      List.foldl_cons, List.foldl_nil]
    norm_num [AaveSvc.convStep, AaveSvc.resCollateral, AaveSvc.resDebt,
      AaveSvc.jsMul, AaveSvc.jsGtB, AaveSvc.jsMin, AaveSvc.jsGeB,
      AaveSvc.jsLeB, AaveSvc.posSample]
    intro h
    rcases h with h | h <;> exact absurd (Option.some.inj h) (by norm_num)
  have hfilter : List.filterMap (fun user =>
      let healthData := AaveSvc.calculateHealthFactor user
      if AaveSvc.jsGeB healthData.healthFactor (some (0:ℚ)) = true ∧
          AaveSvc.jsLeB healthData.healthFactor (some (10:ℚ)) = true then
        AaveSvc.convertToLiquidationPosition healthData 0 1
      else none) [AaveSvc.userCollatDebt] = [AaveSvc.posSample] := by
    simp only [List.filterMap_cons, List.filterMap_nil, hhf]
    rw [if_pos (by norm_num [AaveSvc.jsGeB, AaveSvc.jsLeB]), hconv]
  have hlist : AaveSvc.getLiquidationOpportunities [AaveSvc.userCollatDebt]
      0 10 0 1 = [AaveSvc.posSample] := by
    show List.insertionSort AaveSvc.posLe (List.filterMap _ _) = _
    rw [hfilter]
    simp [List.insertionSort, List.orderedInsert]
  exact (C10_opportunities_sorted_and_in_band [AaveSvc.userCollatDebt]
    0 10 0 1).2 AaveSvc.posSample (by rw [hlist]; exact List.mem_singleton_self _)

/-- Every call to `upsertLiquidationPosition` raises PostgreSQL error
42P10: the `ON CONFLICT` target `(chain_id, user_address,
collateral_asset, debt_asset)` matches none of the unique indexes that
`schema.sql` declares on `liquidation_positions`. -/
theorem upsertLiquidationPosition_errors (table : DBSvc.Table)
    (k : DBSvc.PositionKey) (v : DBSvc.PositionValues) :
    DBSvc.upsertLiquidationPosition table k v =
      .error DBSvc.SqlError.NoMatchingUniqueIndex := by
  simp only [DBSvc.upsertLiquidationPosition]
  rw [if_neg (by decide)]

/-- Counterexample to C8: applying an upsert for `sampleKey` carrying
source timestamp 2 with values A and then an upsert for the same key
carrying the older source timestamp 1 with values B does not converge to
one record holding the newer values A — each call raises 42P10 (the
caller catches and logs it), the table stays empty, and no record for
the key exists at all. -/
theorem C8_upsert_convergence_counterexample :
    DBSvc.upsertLiquidationPosition [] DBSvc.sampleKey DBSvc.sampleValuesA =
      .error DBSvc.SqlError.NoMatchingUniqueIndex ∧
    DBSvc.applyCalls []
      [⟨DBSvc.sampleKey, DBSvc.sampleValuesA, 2⟩,
       ⟨DBSvc.sampleKey, DBSvc.sampleValuesB, 1⟩] = [] ∧
    (DBSvc.applyCalls []
      [⟨DBSvc.sampleKey, DBSvc.sampleValuesA, 2⟩,
       ⟨DBSvc.sampleKey, DBSvc.sampleValuesB, 1⟩]).filter
      (fun r => r.key = DBSvc.sampleKey) ≠
      [⟨DBSvc.sampleKey, DBSvc.sampleValuesA⟩] := by
  refine ⟨upsertLiquidationPosition_errors [] DBSvc.sampleKey DBSvc.sampleValuesA,
    ?_, ?_⟩
  · simp [DBSvc.applyCalls, upsertLiquidationPosition_errors]
  · simp [DBSvc.applyCalls, upsertLiquidationPosition_errors]

/-- C8 as amended: `upsertLiquidationPosition` never stores anything —
`schema.sql` declares no unique index matching the statement's
`ON CONFLICT` target, so every call fails with PostgreSQL error 42P10
before any row is touched, and under the caller's `try/catch` every
sequence of upsert calls leaves the `liquidation_positions` table
exactly as it was; in particular no record converges per key and source
timestamps play no role. -/
theorem C8_upsert_never_stores (table : DBSvc.Table)
    (k : DBSvc.PositionKey) (v : DBSvc.PositionValues)
    (calls : List DBSvc.UpsertCall) :
    DBSvc.upsertLiquidationPosition table k v =
      .error DBSvc.SqlError.NoMatchingUniqueIndex ∧
    DBSvc.applyCalls table calls = table := by
  refine ⟨upsertLiquidationPosition_errors table k v, ?_⟩
  induction calls generalizing table with
  | nil => rfl
  | cons c rest ih =>
    have hstep : DBSvc.applyCalls table (c :: rest) =
        DBSvc.applyCalls
          (match DBSvc.upsertLiquidationPosition table c.key c.values with
           | .ok t2 => t2
           | .error _ => table) rest := rfl
    rw [hstep, upsertLiquidationPosition_errors table c.key c.values]
    exact ih table
